import Mathlib

/-!
Shallow embedding of the GitHub activity reporter (report model, correlation
logic, ingestion pipeline and renderer guards), together with proofs about it.

Timestamps are modelled as local-clock milliseconds (integers): JavaScript
`Date` values compared with `<`/`>=` and floored to midnight with
`setHours(0,0,0,0)` become integers floored to multiples of a day.  Fallible
fetch steps are modelled by explicit outcome parameters, and the process-wide
logger's error list is threaded explicitly next to the report.
-/

/-- Milliseconds in one day; a calendar day in this constant-offset model. -/
def msPerDay : Int := 86400000

/-- Local midnight of the day containing `t`: the effect of
`setHours(0, 0, 0, 0)` on a `Date` holding timestamp `t`. -/
def startOfDay (t : Int) : Int := msPerDay * (t / msPerDay)

/-- The yesterday-window membership test shared verbatim by
`PullRequest.isFromYesterday` and `Activity.isFromYesterday`:
`yesterday` is `now` moved back one calendar day (`setDate(getDate() - 1)`)
then floored to midnight (`setHours(0,0,0,0)`); `tomorrow` is that midnight
moved forward one calendar day; the date must satisfy
`yesterday <= date && date < tomorrow`. -/
def tsFromYesterday (date now : Int) : Bool :=
  let yesterday := startOfDay (now - msPerDay)
  let tomorrow := yesterday + msPerDay
  decide (yesterday ≤ date) && decide (date < tomorrow)

/-- A pull request record (`PullRequest` in the report model). -/
structure PullRequest where
  title : String
  url : String
  author : String
  date : Int
  state : String
deriving DecidableEq

/-- Embedding of `PullRequest.isFromYesterday()`. -/
def PullRequest.isFromYesterday (pr : PullRequest) (now : Int) : Bool :=
  tsFromYesterday pr.date now

/-- An activity record (`Activity` in the report model). -/
structure Activity where
  type : String
  title : String
  url : String
  date : Int
  repoName : String
deriving DecidableEq

/-- Embedding of `Activity.isFromYesterday()`. -/
def Activity.isFromYesterday (a : Activity) (now : Int) : Bool :=
  tsFromYesterday a.date now

/-- Property names a plain object literal resolves through its prototype
chain: bracket lookup of any of these on `typeMap` yields a truthy inherited
member (a function, or the prototype object itself for `__proto__`) rather
than `undefined`. -/
def objectPrototypeMembers : List String :=
  [ "constructor", "hasOwnProperty", "isPrototypeOf", "propertyIsEnumerable"
  , "toLocaleString", "toString", "valueOf", "__defineGetter__"
  , "__defineSetter__", "__lookupGetter__", "__lookupSetter__", "__proto__" ]

/-- The possible values of `typeMap[this.type] || this.type`: a string (an
own-entry human label, or the raw type string via the falsy-`undefined`
fallback), or a truthy member inherited from the object prototype — a
function or object, not a string. -/
inductive TypeDisplayValue where
  | str (s : String)
  | inheritedMember (name : String)
deriving DecidableEq

/-- Embedding of `Activity.getTypeDisplay()`: the object-literal lookup
`typeMap[this.type] || this.type`.  An own entry of the four-key map yields
its label; a type naming an inherited prototype member yields that truthy
member (the `||` fallback is not taken); any other type looks up as
`undefined`, which is falsy, so the raw type string is returned. -/
def Activity.getTypeDisplay (a : Activity) : TypeDisplayValue :=
  if a.type == "pr_created" then TypeDisplayValue.str "Created PR"
  else if a.type == "pr_commented" then TypeDisplayValue.str "Commented on PR"
  else if a.type == "pr_reviewed" then TypeDisplayValue.str "Reviewed PR"
  else if a.type == "issue_commented" then TypeDisplayValue.str "Commented on Issue"
  else if objectPrototypeMembers.contains a.type then
    TypeDisplayValue.inheritedMember a.type
  else TypeDisplayValue.str a.type

/-- One repository's aggregated view (`ProjectSummary` in the report model). -/
structure ProjectSummary where
  name : String
  description : String
  url : String
  language : Option String
  lastPR : Option PullRequest
  myActivities : List Activity
deriving DecidableEq

/-- Embedding of the `ProjectSummary` constructor: a falsy (absent or empty)
description is replaced by the fixed placeholder, `lastPR` defaults to null,
and the activity list starts empty. -/
def ProjectSummary.make (name : String) (description : Option String)
    (url : String) (language : Option String)
    (lastPR : Option PullRequest) : ProjectSummary :=
  { name := name
  , description :=
      match description with
      | some s => if s = "" then "No description available" else s
      | none => "No description available"
  , url := url
  , language := language
  , lastPR := lastPR
  , myActivities := [] }

/-- Embedding of `ProjectSummary.addActivity(activity)`: push onto the end. -/
def ProjectSummary.addActivity (p : ProjectSummary) (a : Activity) : ProjectSummary :=
  { p with myActivities := p.myActivities ++ [a] }

/-- Embedding of `ProjectSummary.hasYesterdayActivity()`:
`this.myActivities.some(a => a.isFromYesterday()) || (this.lastPR && this.lastPR.isFromYesterday())`,
with JavaScript truthiness of the null guard collapsed to `false`. -/
def ProjectSummary.hasYesterdayActivity (p : ProjectSummary) (now : Int) : Bool :=
  p.myActivities.any (fun a => a.isFromYesterday now) ||
    (match p.lastPR with
     | some pr => pr.isFromYesterday now
     | none => false)

/-- Embedding of `ProjectSummary.getYesterdayActivities()`. -/
def ProjectSummary.getYesterdayActivities (p : ProjectSummary) (now : Int) : List Activity :=
  p.myActivities.filter (fun a => a.isFromYesterday now)

/-- An error record as built by `Logger.error(message, context)`:
`{message, context, timestamp}`. -/
structure ErrorRecord where
  message : String
  context : Option String
  timestamp : Int
deriving DecidableEq

/-- The top-level report aggregate (`GitHubReport` in the report model). -/
structure GitHubReport where
  username : String
  generatedAt : Int
  projects : List ProjectSummary
  totalReposAnalyzed : Nat
  errors : List ErrorRecord
deriving DecidableEq

/-- Embedding of the `GitHubReport` constructor. -/
def GitHubReport.new (username : String) (generatedAt : Int) : GitHubReport :=
  { username := username
  , generatedAt := generatedAt
  , projects := []
  , totalReposAnalyzed := 0
  , errors := [] }

/-- Embedding of `GitHubReport.addProject(project)`. -/
def GitHubReport.addProject (r : GitHubReport) (p : ProjectSummary) : GitHubReport :=
  { r with projects := r.projects ++ [p] }

/-- Embedding of `GitHubReport.setTotalRepos(count)`. -/
def GitHubReport.setTotalRepos (r : GitHubReport) (count : Nat) : GitHubReport :=
  { r with totalReposAnalyzed := count }

/-- Embedding of `GitHubReport.addError(error)`. -/
def GitHubReport.addError (r : GitHubReport) (e : ErrorRecord) : GitHubReport :=
  { r with errors := r.errors ++ [e] }

/-- Embedding of `GitHubReport.getActiveProjects()`. -/
def GitHubReport.getActiveProjects (r : GitHubReport) (now : Int) : List ProjectSummary :=
  r.projects.filter (fun p => p.hasYesterdayActivity now)

/-- Embedding of `GitHubReport.getAllYesterdayActivities()`: the per-project
yesterday activities are concatenated in project order, then sorted with the
comparator `(a, b) => b.date - a.date`, i.e. non-ascending by date (stable). -/
def GitHubReport.getAllYesterdayActivities (r : GitHubReport) (now : Int) : List Activity :=
  (r.projects.flatMap (fun p => p.getYesterdayActivities now)).mergeSort
    (fun a b => b.date ≤ a.date)

/-- The record returned by `GitHubReport.getExecutiveSummary()`. -/
structure ExecutiveSummary where
  totalRepos : Nat
  activeRepos : Nat
  totalActivities : Nat
  createdPRs : Nat
  comments : Nat
  reviews : Nat
  hasErrors : Bool
  errorCount : Nat
deriving DecidableEq

/-- Embedding of `GitHubReport.getExecutiveSummary()`: all fields are
recomputed from the report state on every call. -/
def GitHubReport.getExecutiveSummary (r : GitHubReport) (now : Int) : ExecutiveSummary :=
  let activeProjects := r.getActiveProjects now
  let yesterdayActivities := r.getAllYesterdayActivities now
  { totalRepos := r.totalReposAnalyzed
  , activeRepos := activeProjects.length
  , totalActivities := yesterdayActivities.length
  , createdPRs := (yesterdayActivities.filter (fun a => a.type == "pr_created")).length
  , comments := (yesterdayActivities.filter (fun a => a.type == "pr_commented")).length
  , reviews := (yesterdayActivities.filter (fun a => a.type == "pr_reviewed")).length
  , hasErrors := decide (r.errors.length > 0)
  , errorCount := r.errors.length }

/-- The yesterday-window start per the specification's words: local midnight
one calendar day before `now` (written from the spec, to be compared with the
code-derived window of `tsFromYesterday`). -/
def specYesterdayStart (now : Int) : Int := startOfDay now - msPerDay

/-- The yesterday-window end per the specification's words: the window start
plus twenty-four hours. -/
def specYesterdayEnd (now : Int) : Int := specYesterdayStart now + msPerDay

/-- C2: yesterday-window membership is the half-open interval
`[Y0, Y1)` where `Y0` is local midnight one calendar day before `now` and
`Y1 = Y0 + 24h`, for both `Activity.isFromYesterday` and
`PullRequest.isFromYesterday`; a timestamp exactly at `Y0` is included and a
timestamp exactly at `Y1` is excluded. -/
theorem isFromYesterday_halfOpen_window (a : Activity) (pr : PullRequest) (now : Int) :
    (a.isFromYesterday now = true ↔
      specYesterdayStart now ≤ a.date ∧ a.date < specYesterdayEnd now) ∧
    (pr.isFromYesterday now = true ↔
      specYesterdayStart now ≤ pr.date ∧ pr.date < specYesterdayEnd now) ∧
    (a.date = specYesterdayStart now → a.isFromYesterday now = true) ∧
    (a.date = specYesterdayEnd now → a.isFromYesterday now = false) := by
  simp only [Activity.isFromYesterday, PullRequest.isFromYesterday, tsFromYesterday,
    specYesterdayStart, specYesterdayEnd, startOfDay, msPerDay,
    Bool.and_eq_true, decide_eq_true_iff, Bool.and_eq_false_iff,
    decide_eq_false_iff_not]
  refine ⟨by omega, by omega, by omega, by omega⟩

/-- C2 witness: with `now = 200000000` the window is
`[86400000, 172800000)`; an activity dated exactly at the window start is
from yesterday and one dated exactly at the window end is not. -/
theorem isFromYesterday_halfOpen_window_witness :
    (Activity.mk "pr_created" "t" "u" 86400000 "r").isFromYesterday 200000000 = true ∧
    (Activity.mk "pr_created" "t" "u" 172800000 "r").isFromYesterday 200000000 = false :=
  ⟨(isFromYesterday_halfOpen_window (Activity.mk "pr_created" "t" "u" 86400000 "r")
      (PullRequest.mk "t" "u" "a" 0 "open") 200000000).2.2.1 (by decide),
   (isFromYesterday_halfOpen_window (Activity.mk "pr_created" "t" "u" 172800000 "r")
      (PullRequest.mk "t" "u" "a" 0 "open") 200000000).2.2.2 (by decide)⟩

/-- Splitting a character list at a separator character, the semantics of
JavaScript `String.prototype.split` with a one-character separator: the
result is never empty, an empty input yields one empty segment, and
consecutive or trailing separators yield empty segments. -/
def splitOnChar (c : Char) : List Char → List (List Char)
  | [] => [[]]
  | x :: xs =>
    let rest := splitOnChar c xs
    if x = c then [] :: rest
    else
      match rest with
      | [] => [[x]]
      | g :: gs => (x :: g) :: gs

/-- Embedding of `activity.repoName.split('/').pop()`: the last path segment
of a repository name.  `splitOnChar` never returns an empty list, so the
default of `getLastD` is never used. -/
def lastPathSegment (s : String) : String :=
  String.mk ((splitOnChar '/' s.data).getLastD s.data)

/-- Embedding of the correlation predicate from `generateReport`:
`p.name === activity.repoName || p.name === activity.repoName.split('/').pop()`. -/
def projectMatchesActivity (p : ProjectSummary) (a : Activity) : Bool :=
  p.name == a.repoName || p.name == lastPathSegment a.repoName

/-- Embedding of one iteration of the correlation loop:
`projects.find(...)` followed by `project.addActivity(activity)` on the found
object is, on the owning list, an update of the first matching element; when
no element matches, the list is unchanged (the activity is dropped). -/
def addToFirstMatch (a : Activity) : List ProjectSummary → List ProjectSummary
  | [] => []
  | p :: ps =>
    if projectMatchesActivity p a then p.addActivity a :: ps
    else p :: addToFirstMatch a ps

/-- Embedding of the whole correlation phase (`userActivities.forEach(...)`). -/
def correlateActivities (projects : List ProjectSummary)
    (activities : List Activity) : List ProjectSummary :=
  activities.foldl (fun ps a => addToFirstMatch a ps) projects

/-- C5: `hasYesterdayActivity()` holds iff some owned activity is from
yesterday or the owned `lastPR` exists and is from yesterday; in particular a
project with zero activities whose `lastPR` is dated yesterday is active. -/
theorem hasYesterdayActivity_iff (p : ProjectSummary) (now : Int) :
    (p.hasYesterdayActivity now = true ↔
      (∃ a ∈ p.myActivities, a.isFromYesterday now = true) ∨
      (∃ pr, p.lastPR = some pr ∧ pr.isFromYesterday now = true)) ∧
    (∀ pr, p.myActivities = [] → p.lastPR = some pr →
      pr.isFromYesterday now = true → p.hasYesterdayActivity now = true) := by
  constructor
  · simp only [ProjectSummary.hasYesterdayActivity, Bool.or_eq_true, List.any_eq_true]
    constructor
    · rintro (h | h)
      · exact Or.inl h
      · cases hpr : p.lastPR with
        | none => rw [hpr] at h; exact absurd h (by simp)
        | some pr => rw [hpr] at h; exact Or.inr ⟨pr, rfl, h⟩
    · rintro (h | ⟨pr, hpr, h⟩)
      · exact Or.inl h
      · rw [hpr]; exact Or.inr h
  · intro pr hacts hpr h
    simp [ProjectSummary.hasYesterdayActivity, hacts, hpr, h]

/-- C5 witness: a project with no activities whose only evidence is a
`lastPR` dated inside the yesterday window of `now = 200000000` is active. -/
theorem hasYesterdayActivity_iff_witness :
    (ProjectSummary.mk "p" "d" "u" none
      (some (PullRequest.mk "t" "u" "a" 90000000 "open")) []).hasYesterdayActivity
      200000000 = true :=
  (hasYesterdayActivity_iff
    (ProjectSummary.mk "p" "d" "u" none
      (some (PullRequest.mk "t" "u" "a" 90000000 "open")) []) 200000000).2
    (PullRequest.mk "t" "u" "a" 90000000 "open") rfl rfl (by decide)

/-- C10: when `lastPR` is null the guard short-circuits, the predicate is
total (no error), and `hasYesterdayActivity()` holds iff some element of the
activity list is from yesterday. -/
theorem hasYesterdayActivity_noLastPR (p : ProjectSummary) (now : Int)
    (h : p.lastPR = none) :
    p.hasYesterdayActivity now = true ↔
      ∃ a ∈ p.myActivities, a.isFromYesterday now = true := by
  simp [ProjectSummary.hasYesterdayActivity, h, List.any_eq_true]

/-- C10 witness: a project with null `lastPR` and one yesterday-dated
activity (window of `now = 200000000` is `[86400000, 172800000)`) is active. -/
theorem hasYesterdayActivity_noLastPR_witness :
    (ProjectSummary.mk "p" "d" "u" none none
      [Activity.mk "pr_created" "t" "u" 86400005 "p"]).hasYesterdayActivity
      200000000 = true :=
  (hasYesterdayActivity_noLastPR
    (ProjectSummary.mk "p" "d" "u" none none
      [Activity.mk "pr_created" "t" "u" 86400005 "p"]) 200000000 rfl).mpr
    ⟨Activity.mk "pr_created" "t" "u" 86400005 "p", by simp, by decide⟩

/-- C8 counterexample: an activity whose type is `"toString"` is not mapped
by any of the four own entries, yet `getTypeDisplay()` does not return the
raw string verbatim — the object-literal lookup resolves `"toString"`
through the prototype chain to a truthy inherited member, so the `||`
fallback is never reached. -/
theorem getTypeDisplay_prototype_counterexample :
    (Activity.mk "toString" "t" "u" 0 "r").getTypeDisplay ≠
      TypeDisplayValue.str "toString" := by decide

/-- C8 amended: `getTypeDisplay()` maps the four known type values to their
fixed human labels; every other type value that does not name an inherited
object-prototype member is returned as its raw string verbatim; a type value
naming an inherited prototype member returns that truthy member instead of
the raw string.  No case errors. -/
theorem getTypeDisplay_spec_amended :
    (∀ a : Activity, a.type = "pr_created" →
      a.getTypeDisplay = TypeDisplayValue.str "Created PR") ∧
    (∀ a : Activity, a.type = "pr_commented" →
      a.getTypeDisplay = TypeDisplayValue.str "Commented on PR") ∧
    (∀ a : Activity, a.type = "pr_reviewed" →
      a.getTypeDisplay = TypeDisplayValue.str "Reviewed PR") ∧
    (∀ a : Activity, a.type = "issue_commented" →
      a.getTypeDisplay = TypeDisplayValue.str "Commented on Issue") ∧
    (∀ a : Activity, a.type ≠ "pr_created" → a.type ≠ "pr_commented" →
      a.type ≠ "pr_reviewed" → a.type ≠ "issue_commented" →
      objectPrototypeMembers.contains a.type = false →
      a.getTypeDisplay = TypeDisplayValue.str a.type) ∧
    (∀ a : Activity, a.type ≠ "pr_created" → a.type ≠ "pr_commented" →
      a.type ≠ "pr_reviewed" → a.type ≠ "issue_commented" →
      objectPrototypeMembers.contains a.type = true →
      a.getTypeDisplay = TypeDisplayValue.inheritedMember a.type) := by
  refine ⟨?_, ?_, ?_, ?_, ?_, ?_⟩ <;> intro a <;> intros <;>
    simp_all [Activity.getTypeDisplay]

/-- C8 amended witness: a known type maps to its label, an unmapped type
such as `"push_event"` passes through verbatim, and the prototype-member
name `"toString"` yields the inherited member. -/
theorem getTypeDisplay_spec_amended_witness :
    (Activity.mk "pr_created" "t" "u" 0 "r").getTypeDisplay
      = TypeDisplayValue.str "Created PR" ∧
    (Activity.mk "push_event" "t" "u" 0 "r").getTypeDisplay
      = TypeDisplayValue.str "push_event" ∧
    (Activity.mk "toString" "t" "u" 0 "r").getTypeDisplay
      = TypeDisplayValue.inheritedMember "toString" :=
  ⟨getTypeDisplay_spec_amended.1 _ rfl,
   getTypeDisplay_spec_amended.2.2.2.2.1 _ (by decide) (by decide) (by decide)
     (by decide) (by decide),
   getTypeDisplay_spec_amended.2.2.2.2.2 _ (by decide) (by decide) (by decide)
     (by decide) (by decide)⟩

/-- C6: `getExecutiveSummary()` is idempotent.  The query methods mutate
nothing, so a second call sees the same report state; formally, any two calls
at the same reference time on reports with the same observable state (the
`projects`, `totalReposAnalyzed` and `errors` fields the summary reads) yield
identical result records. -/
theorem getExecutiveSummary_idempotent (r r' : GitHubReport) (now : Int)
    (hp : r'.projects = r.projects)
    (ht : r'.totalReposAnalyzed = r.totalReposAnalyzed)
    (he : r'.errors = r.errors) :
    r'.getExecutiveSummary now = r.getExecutiveSummary now := by
  simp [GitHubReport.getExecutiveSummary, GitHubReport.getActiveProjects,
    GitHubReport.getAllYesterdayActivities, hp, ht, he]

/-- C6 witness: two calls on the same one-project report at the same
reference time return identical summary records. -/
theorem getExecutiveSummary_idempotent_witness :
    (GitHubReport.mk "u" 0
      [ProjectSummary.mk "p" "d" "u" none none []] 1 []).getExecutiveSummary 200000000 =
    (GitHubReport.mk "u" 0
      [ProjectSummary.mk "p" "d" "u" none none []] 1 []).getExecutiveSummary 200000000 :=
  getExecutiveSummary_idempotent
    (GitHubReport.mk "u" 0 [ProjectSummary.mk "p" "d" "u" none none []] 1 [])
    (GitHubReport.mk "u" 0 [ProjectSummary.mk "p" "d" "u" none none []] 1 [])
    200000000 rfl rfl rfl

/-- C1: correlation semantics.  The match predicate holds exactly when the
project name equals the activity's `repoName` verbatim or its last path
segment; a non-matching activity leaves the project list — and hence every
executive-summary count — unchanged (it is dropped, stored nowhere); a
matching activity is attached via `addActivity` to the first matching project
in listing order, all other projects untouched. -/
theorem correlation_first_match_or_drop (a : Activity) :
    (∀ p : ProjectSummary, projectMatchesActivity p a = true ↔
      (p.name = a.repoName ∨ p.name = lastPathSegment a.repoName)) ∧
    (∀ ps : List ProjectSummary, (∀ p ∈ ps, projectMatchesActivity p a = false) →
      addToFirstMatch a ps = ps ∧
      ∀ u g t e now,
        (GitHubReport.mk u g (addToFirstMatch a ps) t e).getExecutiveSummary now =
          (GitHubReport.mk u g ps t e).getExecutiveSummary now) ∧
    (∀ (ps₁ : List ProjectSummary) (p : ProjectSummary) (ps₂ : List ProjectSummary),
      (∀ q ∈ ps₁, projectMatchesActivity q a = false) →
      projectMatchesActivity p a = true →
      addToFirstMatch a (ps₁ ++ p :: ps₂) = ps₁ ++ p.addActivity a :: ps₂) := by
  refine ⟨?_, ?_, ?_⟩
  · intro p
    simp [projectMatchesActivity]
  · intro ps h
    have hid : addToFirstMatch a ps = ps := by
      induction ps with
      | nil => rfl
      | cons p ps ih =>
        have hp := h p (by simp)
        have hrest : ∀ q ∈ ps, projectMatchesActivity q a = false := by
          intro q hq; exact h q (by simp [hq])
        simp [addToFirstMatch, hp, ih hrest]
    exact ⟨hid, by intro u g t e now; rw [hid]⟩
  · intro ps₁ p ps₂ h hp
    induction ps₁ with
    | nil => simp [addToFirstMatch, hp]
    | cons q ps₁ ih =>
      have hq := h q (by simp)
      have hrest : ∀ q' ∈ ps₁, projectMatchesActivity q' a = false := by
        intro q' hq'; exact h q' (by simp [hq'])
      simp [addToFirstMatch, hq, ih hrest]

/-- C1 witness: an activity with `repoName = "octo-org/octo-repo"` skips a
non-matching project and is attached to the first project named
`"octo-repo"`, leaving the later identically named project untouched; the
name-match predicate accepts both the verbatim and the bare-name forms. -/
theorem correlation_first_match_or_drop_witness :
    projectMatchesActivity (ProjectSummary.mk "octo-repo" "d" "u" none none [])
      (Activity.mk "pr_created" "t" "u" 0 "octo-org/octo-repo") = true ∧
    addToFirstMatch (Activity.mk "pr_created" "t" "u" 0 "octo-org/octo-repo")
      ([ProjectSummary.mk "other" "d" "u" none none []] ++
        ProjectSummary.mk "octo-repo" "d" "u" none none [] ::
          [ProjectSummary.mk "octo-repo" "d2" "u2" none none []]) =
      [ProjectSummary.mk "other" "d" "u" none none []] ++
        (ProjectSummary.mk "octo-repo" "d" "u" none none []).addActivity
            (Activity.mk "pr_created" "t" "u" 0 "octo-org/octo-repo") ::
          [ProjectSummary.mk "octo-repo" "d2" "u2" none none []] :=
  ⟨((correlation_first_match_or_drop
      (Activity.mk "pr_created" "t" "u" 0 "octo-org/octo-repo")).1
      (ProjectSummary.mk "octo-repo" "d" "u" none none [])).mpr (Or.inr (by decide)),
   (correlation_first_match_or_drop
      (Activity.mk "pr_created" "t" "u" 0 "octo-org/octo-repo")).2.2
      [ProjectSummary.mk "other" "d" "u" none none []]
      (ProjectSummary.mk "octo-repo" "d" "u" none none [])
      [ProjectSummary.mk "octo-repo" "d2" "u2" none none []]
      (by decide) (by decide)⟩

/-- C3: `getAllYesterdayActivities()` returns exactly the yesterday-filtered
activities of all projects flattened in project order (up to the sort's
rearrangement), and every adjacent pair `(a, b)` of the result satisfies
`a.date ≥ b.date` (non-ascending by date). -/
theorem getAllYesterdayActivities_sorted_desc (r : GitHubReport) (now : Int) :
    (r.getAllYesterdayActivities now).Perm
      (r.projects.flatMap (fun p => p.getYesterdayActivities now)) ∧
    List.Chain' (fun a b : Activity => b.date ≤ a.date)
      (r.getAllYesterdayActivities now) := by
  constructor
  · exact List.mergeSort_perm _ _
  · have h := @List.sorted_mergeSort Activity
      (fun a b => decide (b.date ≤ a.date))
      (by intro a b c hab hbc; simp only [decide_eq_true_iff] at *; omega)
      (by intro a b; simp only [Bool.or_eq_true, decide_eq_true_iff]; omega)
      (r.projects.flatMap (fun p => p.getYesterdayActivities now))
    have h' := h.imp (fun hab => of_decide_eq_true hab)
    exact h'.chain'

/-- Counting helper for C9: the length of an activity list is the number of
`pr_created` entries plus the `pr_commented` entries plus the `pr_reviewed`
entries plus the entries whose type is none of the three. -/
theorem activity_count_partition (l : List Activity) :
    l.length
      = (l.filter (fun a => a.type == "pr_created")).length
        + (l.filter (fun a => a.type == "pr_commented")).length
        + (l.filter (fun a => a.type == "pr_reviewed")).length
        + (l.filter (fun a => !(a.type == "pr_created" || a.type == "pr_commented"
            || a.type == "pr_reviewed"))).length := by
  induction l with
  | nil => simp
  | cons a l ih =>
    by_cases h1 : a.type = "pr_created" <;>
      by_cases h2 : a.type = "pr_commented" <;>
        by_cases h3 : a.type = "pr_reviewed" <;>
          simp_all [List.filter_cons] <;> omega

/-- C9: the executive summary's `totalActivities` equals
`createdPRs + comments + reviews` plus the number of yesterday activities
whose type is none of the three counted types (so an `issue_commented`
activity raises the total but none of the three per-type counts). -/
theorem executiveSummary_total_decomposition (r : GitHubReport) (now : Int) :
    (r.getExecutiveSummary now).totalActivities
      = (r.getExecutiveSummary now).createdPRs
        + (r.getExecutiveSummary now).comments
        + (r.getExecutiveSummary now).reviews
        + ((r.getAllYesterdayActivities now).filter
            (fun a => !(a.type == "pr_created" || a.type == "pr_commented"
              || a.type == "pr_reviewed"))).length := by
  have h := activity_count_partition (r.getAllYesterdayActivities now)
  simp only [GitHubReport.getExecutiveSummary]
  omega

/-- A repository record as returned by the listing endpoint
(`{name, full_name, description?, html_url, language?, owner.login}`). -/
structure RepoRecord where
  name : String
  full_name : String
  description : Option String
  html_url : String
  language : Option String
  owner_login : String
deriving DecidableEq

/-- A raw pull-request record as returned by the pulls endpoint
(`{title, html_url, user.login, updated_at, state}`). -/
structure PRRecord where
  title : String
  html_url : String
  user_login : String
  updated_at : Int
  state : String
deriving DecidableEq

/-- Outcome of the pulls-list request inside `getLastPRForRepo`: either the
(possibly empty) page of pull requests, or a thrown error — which that
method swallows silently by design. -/
inductive PRFetch where
  | ok (prs : List PRRecord)
  | err
deriving DecidableEq

/-- Embedding of `GitHubService.getLastPRForRepo`: the first pull request of
the page becomes a `PullRequest`; an empty page yields null; a thrown error
is caught silently and also yields null. -/
def getLastPRForRepo : PRFetch → Option PullRequest
  | .ok (pr :: _) =>
      some (PullRequest.mk pr.title pr.html_url pr.user_login pr.updated_at pr.state)
  | .ok [] => none
  | .err => none

/-- Outcome of the detail step for one repository inside `getRepoDetails`:
either the body ran to completion with the given pulls-request outcome, or
it threw with the given error message. -/
inductive DetailOutcome where
  | ok (prFetch : PRFetch)
  | threw (msg : String)
deriving DecidableEq

/-- Embedding of `GitHubService.getRepoDetails`: on success, a
`ProjectSummary` from the listing metadata with the last PR attached when one
was found; on a thrown error, `logger.error` records
`{message, context, timestamp}` in the logger's list (returned alongside) and
a minimal `ProjectSummary` from the listing metadata is still returned. -/
def getRepoDetails (repo : RepoRecord) (outcome : DetailOutcome) (now : Int) :
    ProjectSummary × List ErrorRecord :=
  match outcome with
  | .ok prf =>
    let project := ProjectSummary.make repo.name repo.description repo.html_url
      repo.language none
    (match getLastPRForRepo prf with
     | some pr => { project with lastPR := some pr }
     | none => project, [])
  | .threw msg =>
    (ProjectSummary.make repo.name repo.description repo.html_url repo.language none,
     [ErrorRecord.mk ("Failed to process repo: " ++ repo.full_name) (some msg) now])

/-- One iteration of the repository loop in `generateReport`: fetch the
repository's details, push the project into the report, and accumulate any
logger errors. -/
def ingestStep (now : Int) (acc : GitHubReport × List ErrorRecord)
    (input : RepoRecord × DetailOutcome) : GitHubReport × List ErrorRecord :=
  let rd := getRepoDetails input.1 input.2 now
  (acc.1.addProject rd.1, acc.2 ++ rd.2)

/-- Embedding of the ingestion phase of `generateReport`: create the report,
call `setTotalRepos(repos.length)`, then process each listed repository in
order, adding exactly one `ProjectSummary` per repository.  The second
component is the process-wide logger's error list. -/
def runIngestion (username : String) (genAt : Int)
    (inputs : List (RepoRecord × DetailOutcome)) (now : Int) :
    GitHubReport × List ErrorRecord :=
  let report := (GitHubReport.new username genAt).setTotalRepos inputs.length
  inputs.foldl (ingestStep now) (report, [])

/-- Guard of the markdown `## Errors Encountered` section in
`generateMarkdownReport`: emitted iff `summary.hasErrors`. -/
def markdownShowsErrorsSection (r : GitHubReport) (now : Int) : Bool :=
  (r.getExecutiveSummary now).hasErrors

/-- Guard of the `Errors Encountered:` line in `displayConsoleReport`:
printed iff `summary.hasErrors`. -/
def consoleReportShowsErrors (r : GitHubReport) (now : Int) : Bool :=
  (r.getExecutiveSummary now).hasErrors

/-- Guard of the error block in `Logger.printSummary()`: printed iff the
logger's own error list is non-empty. -/
def loggerSummaryShowsErrors (errors : List ErrorRecord) : Bool :=
  decide (errors.length > 0)

/-- Invariants of the ingestion fold: each step appends exactly one project,
never touches `totalReposAnalyzed`, and never touches the report's `errors`
list (thrown detail errors go only to the logger's list). -/
theorem ingest_foldl_invariants (now : Int)
    (inputs : List (RepoRecord × DetailOutcome))
    (r : GitHubReport) (e : List ErrorRecord) :
    (inputs.foldl (ingestStep now) (r, e)).1.projects.length
        = r.projects.length + inputs.length ∧
    (inputs.foldl (ingestStep now) (r, e)).1.totalReposAnalyzed
        = r.totalReposAnalyzed ∧
    (inputs.foldl (ingestStep now) (r, e)).1.errors = r.errors := by
  induction inputs generalizing r e with
  | nil => simp
  | cons i inputs ih =>
    have h := ih (r.addProject (getRepoDetails i.1 i.2 now).1)
      (e ++ (getRepoDetails i.1 i.2 now).2)
    simp only [List.foldl_cons, ingestStep] at *
    refine ⟨?_, ?_, ?_⟩
    · rw [h.1]; simp [GitHubReport.addProject]; omega
    · rw [h.2.1]; simp [GitHubReport.addProject]
    · rw [h.2.2]; simp [GitHubReport.addProject]

/-- C7: after the ingestion phase (`setTotalRepos(repos.length)` followed by
adding exactly one `ProjectSummary` per listed repository, the detail step
never throwing past its own handler), the report satisfies
`totalReposAnalyzed = projects.length`, for every listing and every
combination of per-repository outcomes. -/
theorem ingestion_totalRepos_eq_projects (username : String) (genAt : Int)
    (inputs : List (RepoRecord × DetailOutcome)) (now : Int) :
    (runIngestion username genAt inputs now).1.totalReposAnalyzed
      = (runIngestion username genAt inputs now).1.projects.length := by
  have h := ingest_foldl_invariants now inputs
    ((GitHubReport.new username genAt).setTotalRepos inputs.length) []
  simp only [runIngestion]
  rw [h.1, h.2.1]
  simp [GitHubReport.new, GitHubReport.setTotalRepos]

/-- A repository record with only a name, for concrete runs. -/
def demoRepo (n : String) : RepoRecord :=
  RepoRecord.mk n ("me/" ++ n) none ("https://github.example/" ++ n) none "me"

/-- A concrete five-repository listing whose second repository's detail
fetch throws (and whose third has a silently failing PR fetch). -/
def demoIngestInputs : List (RepoRecord × DetailOutcome) :=
  [ (demoRepo "r1", DetailOutcome.ok (PRFetch.ok []))
  , (demoRepo "r2", DetailOutcome.threw "API error")
  , (demoRepo "r3", DetailOutcome.ok PRFetch.err)
  , (demoRepo "r4", DetailOutcome.ok (PRFetch.ok []))
  , (demoRepo "r5", DetailOutcome.ok (PRFetch.ok [])) ]

/-- C4: what the pipeline actually does with a failed detail fetch.  The
error record built by `logger.error` lands only in the process-wide logger's
list: the report's own `errors` list is empty after every ingestion run
(`addError` is never invoked), so on the concrete five-repository run with
one detail failure the run continues (five projects, a minimal summary for
the failed one), the logger holds the one error and its console summary
shows it, but `getExecutiveSummary().hasErrors` is false and neither the
console report's error line nor the markdown `Errors Encountered` section is
ever rendered — against the stated propagation policy. -/
theorem detailFailure_bypasses_report_errors :
    (∀ (u : String) (g : Int) (inputs : List (RepoRecord × DetailOutcome)) (now : Int),
      (runIngestion u g inputs now).1.errors = []) ∧
    (runIngestion "user" 0 demoIngestInputs 0).1.projects.length = 5 ∧
    (runIngestion "user" 0 demoIngestInputs 0).1.projects.length
      = (runIngestion "user" 0 demoIngestInputs 0).1.totalReposAnalyzed ∧
    (runIngestion "user" 0 demoIngestInputs 0).2
      = [ErrorRecord.mk "Failed to process repo: me/r2" (some "API error") 0] ∧
    ((runIngestion "user" 0 demoIngestInputs 0).1.getExecutiveSummary 0).hasErrors = false ∧
    markdownShowsErrorsSection (runIngestion "user" 0 demoIngestInputs 0).1 0 = false ∧
    consoleReportShowsErrors (runIngestion "user" 0 demoIngestInputs 0).1 0 = false ∧
    loggerSummaryShowsErrors (runIngestion "user" 0 demoIngestInputs 0).2 = true := by
  refine ⟨?_, ?_, ?_, ?_, ?_, ?_, ?_, ?_⟩
  · intro u g inputs now
    have h := ingest_foldl_invariants now inputs
      ((GitHubReport.new u g).setTotalRepos inputs.length) []
    simp only [runIngestion]
    rw [h.2.2]
    rfl
  all_goals rfl
